import Mathlib

/-!
Verification development for the InstrumentDashboard repository.

The definitions below are a shallow embedding of the data-ingestion and
persistence pipeline of the dashboard:
  * `parseDate` embeds the helper of the same name in
    `src/hooks/useEquipmentData.js` (lines 213-253);
  * `formatDate` embeds the display formatter in `src/App.jsx` (lines 74-114);
  * `saveEquipment`, `fetchEquipment`, `clearAllData` embed the hook operations
    of `src/hooks/useEquipmentData.js`;
  * `mapRow` / `ingest` / `handleUpload` embed the upload handler of
    `src/App.jsx` (lines 116-173);
  * `filteredData`, `alertItemsAll`, `alertItems` embed the aggregation memos
    of `src/App.jsx` (lines 184-270).

Modelling conventions:
  * Spreadsheet cell values are either strings or integer-valued numbers
    (`CellVal`); the JavaScript truthiness used by the source (`||` defaults,
    `if (!v)`) is `vTruthy`.
  * JavaScript `Date` values are epoch milliseconds (`Int`).  The host time
    zone is modelled as a fixed offset east of UTC in minutes (`Ctx.tz`):
    `new Date(y, m, d)` denotes local midnight, i.e. epoch milliseconds
    `daysFromCivil y m d * 86400000 - tz * 60000`, while `toISOString`,
    which the source uses to render the persisted date, works in UTC.
  * The generic string parsing performed by `new Date(string)` is
    implementation-defined; it is a parameter `Ctx.genParse` returning the
    parsed epoch milliseconds, `none` meaning an Invalid Date.
  * Case folding (`toLowerCase`) is modelled on the ASCII range, which covers
    every string the source compares case-insensitively.
-/

deriving instance DecidableEq for Except

namespace Dash

/-- A spreadsheet / JavaScript cell value: a string or an (integer) number. -/
inductive CellVal where
  | str (s : String)
  | num (n : Int)
deriving DecidableEq

/-- JavaScript truthiness of a cell value (`''` and `0` are falsy). -/
def vTruthy : CellVal → Bool
  | .str s => s ≠ ""
  | .num n => n ≠ 0

/-- JavaScript `a || b` over an optional cell (an absent key reads as
`undefined`, which is falsy). -/
def jsOr (a : Option CellVal) (b : CellVal) : CellVal :=
  match a with
  | some v => if vTruthy v then v else b
  | none => b

/-- Host context: fixed time-zone offset east of UTC in minutes, and the
implementation-defined generic date-string parser (`new Date(string)`),
returning epoch milliseconds or `none` for an Invalid Date. -/
structure Ctx where
  tz : Int
  genParse : String → Option Int

/-! ### Civil-date arithmetic

Conversion between a day count relative to 1970-01-01 and a proleptic
Gregorian calendar date, the arithmetic the JavaScript `Date` object
implements. -/

/-- Days since 1970-01-01 of the civil date `(y, m, d)`, `m` 1-based.
The formula is linear in `d`, so an out-of-range day rolls over exactly as
`new Date(y, m, d)` does. -/
def daysFromCivil (y m d : Int) : Int :=
  let y' := y - (if m ≤ 2 then 1 else 0)
  let era := Int.fdiv y' 400
  let yoe := y' - era * 400
  let doy := (153 * (m + (if m > 2 then -3 else 9)) + 2) / 5 + d - 1
  let doe := yoe * 365 + yoe / 4 - yoe / 100 + doy
  era * 146097 + doe - 719468

/-- Civil date `(y, m, d)` (`m` 1-based) of a day count since 1970-01-01. -/
def civilFromDays (z : Int) : Int × Int × Int :=
  let z' := z + 719468
  let era := Int.fdiv z' 146097
  let doe := z' - era * 146097
  let yoe := (doe - doe / 1460 + doe / 36524 - doe / 146096) / 365
  let y := yoe + era * 400
  let doy := doe - (365 * yoe + yoe / 4 - yoe / 100)
  let mp := (5 * doy + 2) / 153
  let d := doy - (153 * mp + 2) / 5 + 1
  let m := mp + (if mp < 10 then 3 else -9)
  (y + (if m ≤ 2 then 1 else 0), m, d)

/-- Decimal rendering of a nonnegative component, left-padded to `w` digits,
as `toISOString` renders months, days and in-range years. -/
def padNum (w : Nat) (n : Int) : String :=
  let s := toString n.natAbs
  let pad := String.mk (List.replicate (w - s.length) '0')
  pad ++ s

/-- The year field of `toISOString`: four padded digits for years 0..9999,
the expanded `±YYYYYY` form outside that range. -/
def isoYear (y : Int) : String :=
  if 0 ≤ y ∧ y ≤ 9999 then padNum 4 y
  else (if y < 0 then "-" else "+") ++ padNum 6 y

/-- The `YYYY-MM-DD` rendering of the day count `z` since 1970-01-01. -/
def isoOfDays (z : Int) : String :=
  let c := civilFromDays z
  isoYear c.1 ++ "-" ++ padNum 2 c.2.1 ++ "-" ++ padNum 2 c.2.2

/-- A JavaScript time value is valid iff within ±8,640,000,000,000,000 ms of
the epoch; outside it `getTime()` is NaN. -/
def msValid (ms : Int) : Bool := ms.natAbs ≤ 8640000000000000

/-- The calendar-date part of `toISOString()` for epoch milliseconds `ms`. -/
def isoDateOfMs (ms : Int) : String := isoOfDays (Int.fdiv ms 86400000)

/-! ### The `D{1,2}-MMM-YYYY` pattern -/

/-- Split a character sequence at every `'-'` (the three capture groups of
the source's regular expression are separated by literal hyphens). -/
def splitDash : List Char → List (List Char)
  | [] => [[]]
  | c :: rest =>
    if c = '-' then [] :: splitDash rest
    else
      match splitDash rest with
      | g :: gs => (c :: g) :: gs
      | [] => [[c]]

/-- ASCII lower-casing of one character, the case folding relevant to the
month abbreviations and the "obsolete" substring test. -/
def lowerChar (c : Char) : Char :=
  if 65 ≤ c.toNat ∧ c.toNat ≤ 90 then Char.ofNat (c.toNat + 32) else c

/-- ASCII lower-casing of a string. -/
def lowerStr (s : String) : String := String.mk (s.data.map lowerChar)

/-- Decimal value of a digit sequence (`parseInt` on the matched group). -/
def decVal (cs : List Char) : Nat :=
  cs.foldl (fun acc c => 10 * acc + (c.toNat - 48)) 0

/-- The source's `monthMap`: lower-cased three-letter abbreviation to
zero-based month index. -/
def monthIdx (cs : List Char) : Option Nat :=
  if cs = ['j', 'a', 'n'] then some 0
  else if cs = ['f', 'e', 'b'] then some 1
  else if cs = ['m', 'a', 'r'] then some 2
  else if cs = ['a', 'p', 'r'] then some 3
  else if cs = ['m', 'a', 'y'] then some 4
  else if cs = ['j', 'u', 'n'] then some 5
  else if cs = ['j', 'u', 'l'] then some 6
  else if cs = ['a', 'u', 'g'] then some 7
  else if cs = ['s', 'e', 'p'] then some 8
  else if cs = ['o', 'c', 't'] then some 9
  else if cs = ['n', 'o', 'v'] then some 10
  else if cs = ['d', 'e', 'c'] then some 11
  else none

/-- Match `^(\d{1,2})-([A-Za-z]{3})-(\d{4})$` against `s` and, on a match
whose month abbreviation is in `monthMap`, return the epoch milliseconds of
`new Date(year, monthIdx, day)` — local midnight in a zone `tz` minutes east
of UTC.  `none` when the pattern does not match or the month is unknown. -/
def ddMmmMs (tz : Int) (s : String) : Option Int :=
  match splitDash s.data with
  | [ds, ms_, ys] =>
    if (ds.all Char.isDigit && decide (1 ≤ ds.length) && decide (ds.length ≤ 2)
        && ms_.all Char.isAlpha && decide (ms_.length = 3)
        && ys.all Char.isDigit && decide (ys.length = 4)) then
      match monthIdx (ms_.map lowerChar) with
      | some mi =>
        some (daysFromCivil (decVal ys) (mi + 1) (decVal ds) * 86400000
              - tz * 60000)
      | none => none
    else none
  | _ => none

/-! ### The two date converters of the source -/

/-- Embedding of `parseDate` (`src/hooks/useEquipmentData.js`, lines
213-253): persistence-bound conversion of a raw value to an ISO `YYYY-MM-DD`
string, `none` for the source's `null`. -/
def parseDate (ctx : Ctx) (v : CellVal) : Option String :=
  if vTruthy v = false then none
  else
    let dateMs : Option Int :=
      match v with
      | .num n => some ((n - 25569) * 86400 * 1000)
      | .str s =>
        match ddMmmMs ctx.tz s with
        | some ms => some ms
        | none => ctx.genParse s
    match dateMs with
    | none => none
    | some ms => if msValid ms then some (isoDateOfMs ms) else none

/-- The month names array of the display formatter. -/
def monthNames : List String :=
  ["Jan", "Feb", "Mar", "Apr", "May", "Jun",
   "Jul", "Aug", "Sep", "Oct", "Nov", "Dec"]

/-- `date.getMonth()` / `getFullYear()` rendering `Mmm-YY` used by the
display formatter; both accessors are local-time, offset `tz`. -/
def mmmYY (tz : Int) (ms : Int) : String :=
  let c := civilFromDays (Int.fdiv (ms + tz * 60000) 86400000)
  let name := monthNames.getD (c.2.1 - 1).toNat ""
  let ys := toString c.1
  name ++ "-" ++ String.mk ((ys.data.reverse.take 2).reverse)

/-- Embedding of `formatDate` (`src/App.jsx`, lines 74-114): display-bound
conversion to `Mmm-YY`; unparseable non-empty input is returned unchanged. -/
def formatDate (ctx : Ctx) (v : CellVal) : CellVal :=
  if vTruthy v = false then .str "-"
  else
    let dateMs : Option Int :=
      match v with
      | .num n => some ((n - 25569) * 86400 * 1000)
      | .str s =>
        match ddMmmMs ctx.tz s with
        | some ms => some ms
        | none => ctx.genParse s
    match dateMs with
    | none => v
    | some ms => if msValid ms then .str (mmmYY ctx.tz ms) else v

/-! ### Data model -/

/-- The canonical in-memory Equipment Record produced by the upload mapper
and by the fetch transform (`src/App.jsx` lines 138-148, hook lines 62-72).
The fields the source always produces as strings are strings; the raw
notification-date cell is kept verbatim, so it stays a `CellVal`. -/
structure Record where
  area : String
  equipmentType : String
  description : String
  functionalLocation : String
  criticality : String
  status : String
  alarmDescription : String
  rectification : String
  notificationDate : CellVal
deriving DecidableEq

/-- A row of the remote `equipment` collection, underscore-keyed; optional
columns are nullable (`src/supabase/schema.sql`). -/
structure DbRow where
  area : String
  status : String
  equipment_type : Option String
  description : Option String
  functional_location : Option String
  criticality : Option String
  alarm_description : Option String
  rectification : Option String
  notification_date : Option String
deriving DecidableEq

/-- The singleton `dashboard_meta` row written by the save operation. -/
structure MetaRow where
  last_refreshed_at : Int
  refreshed_by : String
deriving DecidableEq

/-- The configuration-error banner text of the hook. -/
def errNotConfigured : String :=
  "Supabase is not configured. Please set environment variables."

/-- `s || null` at the persistence boundary: the empty string becomes NULL. -/
def strOrNull (s : String) : Option String :=
  if s = "" then none else some s

/-- The app-to-database transform of `saveEquipment` (hook lines 102-112). -/
def appToDb (ctx : Ctx) (r : Record) : DbRow :=
  { area := r.area
    status := r.status
    equipment_type := strOrNull r.equipmentType
    description := strOrNull r.description
    functional_location := strOrNull r.functionalLocation
    criticality := strOrNull r.criticality
    alarm_description := strOrNull r.alarmDescription
    rectification := strOrNull r.rectification
    notification_date := parseDate ctx r.notificationDate }

/-- The database-to-app transform of `fetchEquipment` (hook lines 62-72):
`x || ''` substitutes the empty string for NULL. -/
def dbToApp (row : DbRow) : Record :=
  { area := row.area
    equipmentType := row.equipment_type.getD ""
    description := row.description.getD ""
    functionalLocation := row.functional_location.getD ""
    criticality := row.criticality.getD ""
    status := row.status
    alarmDescription := row.alarm_description.getD ""
    rectification := row.rectification.getD ""
    notificationDate := .str (row.notification_date.getD "") }

/-! ### The remote store and the hook state -/

/-- Outcome of each kind of remote call in one operation: `true` means the
call succeeds.  A failing call has no effect on the store. -/
structure RemoteEnv where
  deleteOk : Bool
  insertOk : Bool
  metaOk : Bool
  readOk : Bool

/-- One remote call, recorded in the order the operation issues it. -/
inductive Call where
  | del
  | ins (rows : List DbRow)
  | upsertMeta (m : MetaRow)
  | readPage (lo hi : Nat)
deriving DecidableEq

/-- The state the hook and the remote store share: the in-memory record set
(`data`), the remote `equipment` rows, the metadata singleton, the
`lastRefreshedAt` mirror and the last error banner. -/
structure AppState where
  data : Option (List Record)
  store : List DbRow
  meta : Option MetaRow
  lastRefreshedAt : Option Int
  error : Option String
deriving DecidableEq

/-- Embedding of `saveEquipment` (hook lines 86-155).  `input` is the JS
argument (`none` for a missing/null argument).  Returns the boolean result,
the state after the operation, and the remote calls attempted in order.
The source's delete-all (`neq` on a never-matching id) empties the store. -/
def saveEquipment (ctx : Ctx) (env : RemoteEnv) (configured : Bool)
    (now : Int) (st : AppState) (input : Option (List Record)) :
    Bool × AppState × List Call :=
  if configured = false then
    (false, { st with error := some errNotConfigured }, [])
  else
    match input with
    | none => (false, { st with error := some "No data to save." }, [])
    | some eqData =>
      if eqData.isEmpty then
        (false, { st with error := some "No data to save." }, [])
      else
        let st0 := { st with error := none }
        let dbRecords := eqData.map (appToDb ctx)
        if env.deleteOk = false then
          (false, { st0 with error := some "Failed to save data: delete" },
           [Call.del])
        else
          let st1 := { st0 with store := [] }
          if env.insertOk = false then
            (false, { st1 with error := some "Failed to save data: insert" },
             [Call.del, Call.ins dbRecords])
          else
            let st2 := { st1 with store := dbRecords }
            let m : MetaRow := ⟨now, "Admin"⟩
            if env.metaOk = false then
              (true, { st2 with data := some eqData },
               [Call.del, Call.ins dbRecords, Call.upsertMeta m])
            else
              let st3 := { st2 with meta := some m, lastRefreshedAt := some now }
              (true, { st3 with data := some eqData },
               [Call.del, Call.ins dbRecords, Call.upsertMeta m])

/-- Embedding of `clearAllData` (hook lines 158-185). -/
def clearAllData (env : RemoteEnv) (configured : Bool) (st : AppState) :
    Bool × AppState × List Call :=
  if configured = false then
    (false, { st with error := some errNotConfigured }, [])
  else if env.deleteOk = false then
    (false, { st with error := some "Failed to clear data: delete" },
     [Call.del])
  else
    (true, { st with data := none, store := [], error := none }, [Call.del])

/-! ### Fetching with pagination -/

/-- A stable insertion sort for an integer-valued comparator, the behaviour
of a stable comparison sort: an element is placed before the first element
it compares `≤ 0` against. -/
def insertCmp (cmp : α → α → Int) (x : α) : List α → List α
  | [] => [x]
  | y :: ys => if cmp x y ≤ 0 then x :: y :: ys else y :: insertCmp cmp x ys

/-- Stable sort by an integer-valued comparator. -/
def sortCmp (cmp : α → α → Int) : List α → List α
  | [] => []
  | x :: xs => insertCmp cmp x (sortCmp cmp xs)

/-- The two-key ascending order of the fetch query
(`order('area').order('equipment_type')`); NULL sorts last, the Postgres
default for ascending order. -/
def dbCmp (a b : DbRow) : Int :=
  if a.area < b.area then -1
  else if b.area < a.area then 1
  else
    match a.equipment_type, b.equipment_type with
    | none, none => 0
    | none, some _ => 1
    | some _, none => -1
    | some x, some y => if x < y then -1 else if y < x then 1 else 0

/-- The page size of the fetch loop (hook line 35). -/
def pageSize : Nat := 1000

/-- The successive page responses of the fetch loop (hook lines 39-52): each
request asks for the range `[start, start + pageSize - 1]` of the sorted
rows, and the loop continues exactly while a response has `pageSize` rows. -/
def fetchPages (rows : List DbRow) (start : Nat) : List (List DbRow) :=
  if _h : ((rows.drop start).take pageSize).length = pageSize then
    (rows.drop start).take pageSize :: fetchPages rows (start + pageSize)
  else
    [(rows.drop start).take pageSize]
termination_by rows.length - start
decreasing_by
  simp only [List.length_take, List.length_drop] at _h
  simp only [pageSize] at *
  omega

/-- Embedding of `fetchEquipment` (hook lines 15-83): returns the
transformed records, the state after the operation and the remote calls.
A `readOk = false` environment makes some page request fail, which aborts
the whole fetch (the `catch` branch). -/
def fetchEquipment (env : RemoteEnv) (configured : Bool) (st : AppState) :
    List Record × AppState :=
  if configured = false then
    ([], { st with error := some errNotConfigured })
  else if env.readOk = false then
    ([], { st with error := some "Failed to load data: read" })
  else
    let allEquipment := (fetchPages (sortCmp dbCmp st.store) 0).flatten
    let transformedData := allEquipment.map dbToApp
    let lastR :=
      match st.meta with
      | some m => some m.last_refreshed_at
      | none => st.lastRefreshedAt
    (transformedData,
     { st with
       data := if transformedData.length > 0 then some transformedData
               else none
       lastRefreshedAt := lastR
       error := none })

/-! ### Upload: mapping raw rows and ingesting a workbook -/

/-- A raw spreadsheet row: an ordered header-to-value mapping. -/
def Row := List (String × CellVal)

/-- Read a header from a raw row (`row['H']`; `none` is `undefined`). -/
def getCell (row : Row) (k : String) : Option CellVal :=
  (List.find? (fun p => p.1 = k) row).map (fun p => p.2)

/-- The recognized area names, in the fixed order of `AREAS`
(`src/App.jsx` line 21). -/
def AREAS : List String :=
  ["Ammonia", "Utility", "Urea", "PDF UET", "System", "Turbomachinery"]

/-- The status values accepted by the upload mapper (line 137). -/
def validStatuses : List String := ["Healthy", "Caution", "Warning"]

/-- `s.trim()`: strip leading and trailing whitespace. -/
def trimStr (s : String) : String :=
  String.mk
    (((s.data.dropWhile Char.isWhitespace).reverse.dropWhile
        Char.isWhitespace).reverse)

/-- `v.trim()` on a cell value: throws a TypeError when the value is a
number (numbers have no `trim` method). -/
def cellTrim : CellVal → Except Unit String
  | .str s => .ok (trimStr s)
  | .num _ => .error ()

/-- Rendering of a cell used for the free-text fields the source copies
verbatim; a numeric cell is rendered as its decimal string. -/
def cellText : CellVal → String
  | .str s => s
  | .num n => toString n

/-- `row['Status'] || 'Unknown'` (line 135). -/
def statusRead (row : Row) : CellVal :=
  jsOr (getCell row "Status") (.str "Unknown")

/-- The acceptance test of line 137:
`status && ['Healthy', 'Caution', 'Warning'].includes(status)` —
`includes` is an exact-equality membership test, false for any non-string. -/
def statusAccept (row : Row) : Bool :=
  vTruthy (statusRead row) &&
    (match statusRead row with
     | .str s => decide (s ∈ validStatuses)
     | .num _ => false)

/-- `row['Equiment Type'] || row['Equipment Type'] || 'Unknown'`
(line 136), before `.trim()` is applied. -/
def etRead (row : Row) : CellVal :=
  jsOr (getCell row "Equiment Type")
    (jsOr (getCell row "Equipment Type") (.str "Unknown"))

/-- Is the cell value a string (so that `.trim()` does not throw)? -/
def isStr : CellVal → Bool
  | .str _ => true
  | .num _ => false

/-- Embedding of the per-row body of `handleFileUpload` (`src/App.jsx` lines
134-150): maps one raw row of sheet `sheetName` to `ok (some record)`, or
`ok none` when the status check rejects it, or `error ()` when the row
throws (numeric equipment-type cell hit by `.trim()`). -/
def mapRow (sheetName : String) (row : Row) : Except Unit (Option Record) :=
  let status := statusRead row
  match cellTrim (etRead row) with
  | .error e => .error e
  | .ok equipType =>
    if statusAccept row then
      .ok (some
        { area := sheetName
          equipmentType := equipType
          description := cellText (jsOr (getCell row "Description") (.str ""))
          functionalLocation :=
            cellText (jsOr (getCell row "Functional Location") (.str ""))
          criticality := cellText (jsOr (getCell row "Criticality")
            (jsOr (getCell row "Fleet") (.str "")))
          status := cellText status
          alarmDescription :=
            cellText (jsOr (getCell row "Alarm Description") (.str ""))
          rectification :=
            cellText (jsOr (getCell row "Rectification") (.str ""))
          notificationDate := jsOr (getCell row "Notification Date")
            (jsOr (getCell row "Date") (.str "")) })
    else
      .ok none

/-- Accepted records of a sheet's row sequence, in order; the first row that
throws aborts the whole upload (the surrounding `try`/`catch`). -/
def mapRows (sheetName : String) : List Row → Except Unit (List Record)
  | [] => .ok []
  | r :: rest =>
    match mapRow sheetName r with
    | .error e => .error e
    | .ok none => mapRows sheetName rest
    | .ok (some rec) =>
      match mapRows sheetName rest with
      | .error e => .error e
      | .ok recs => .ok (rec :: recs)

/-- A decoded workbook: named sheets, each an ordered sequence of rows. -/
def Workbook := List (String × List Row)

/-- Embedding of the sheet iteration of `handleFileUpload` (lines 130-152):
every recognized area name present among the workbook's sheets contributes
its mapped rows, in `AREAS` order. -/
def ingest (wb : Workbook) : Except Unit (List Record) :=
  AREAS.foldl
    (fun acc sheetName =>
      match acc with
      | .error e => .error e
      | .ok sofar =>
        match List.find? (fun p => p.1 = sheetName) wb with
        | none => .ok sofar
        | some (_, rows) =>
          match mapRows sheetName rows with
          | .error e => .error e
          | .ok recs => .ok (sofar ++ recs))
    (.ok [])

/-- Embedding of the post-parse part of `handleFileUpload` (lines 154-170):
save to the store when configured and non-empty, fall back to setting local
state; a decode/mapping error leaves the record set untouched. -/
def handleUpload (ctx : Ctx) (env : RemoteEnv) (configured : Bool)
    (now : Int) (st : AppState) (wb : Workbook) : AppState × List Call :=
  let st := { st with error := none }
  match ingest wb with
  | .error _ => (st, [])
  | .ok allData =>
    if configured && decide (allData.length > 0) then
      let r := saveEquipment ctx env configured now st (some allData)
      if r.1 then (r.2.1, r.2.2)
      else ({ r.2.1 with data := some allData }, r.2.2)
    else
      ({ st with data := some allData }, [])

/-! ### Aggregation: filter and alert lists -/

/-- The three filter selections, each `"All"` or a specific value. -/
structure Selection where
  area : String
  equipment : String
  status : String

/-- The record-level filter of `filteredData` (`src/App.jsx` lines 184-192). -/
def keepItem (sel : Selection) (item : Record) : Bool :=
  if sel.area ≠ "All" && item.area ≠ sel.area then false
  else if sel.equipment ≠ "All" && item.equipmentType ≠ sel.equipment then false
  else if sel.status ≠ "All" && item.status ≠ sel.status then false
  else true

/-- Embedding of the `filteredData` memo: the empty list when no data is
loaded, otherwise the records passing all three selections. -/
def filteredData (data : Option (List Record)) (sel : Selection) :
    List Record :=
  match data with
  | none => []
  | some l => l.filter (keepItem sel)

/-- Does the needle occur at the start of the haystack? -/
def startsWithChars : List Char → List Char → Bool
  | [], _ => true
  | _ :: _, [] => false
  | a :: as, b :: bs => a = b && startsWithChars as bs

/-- Does the needle occur anywhere in the haystack? -/
def occursIn (needle : List Char) : List Char → Bool
  | [] => needle.isEmpty
  | c :: rest => startsWithChars needle (c :: rest) || occursIn needle rest

/-- `hay.toLowerCase().includes(needle)` for an already-lower-cased needle. -/
def containsSub (hay needle : String) : Bool :=
  occursIn needle.data (lowerStr hay).data

/-- The alert filter (line 259): non-healthy, with a non-empty alarm
description that does not mention "obsolete" case-insensitively. -/
def alertPred (d : Record) : Bool :=
  d.status ≠ "Healthy" && d.alarmDescription ≠ ""
    && !(containsSub d.alarmDescription "obsolete")

/-- The comparator of the alert sort (lines 260-265): Warning first, then
Caution, ties keep their order. -/
def alertCmp (a b : Record) : Int :=
  if a.status = "Warning" && b.status = "Caution" then -1
  else if a.status = "Caution" && b.status = "Warning" then 1
  else 0

/-- Embedding of the `alertItemsAll` memo (lines 256-266). -/
def alertItemsAll (data : Option (List Record)) (sel : Selection) :
    List Record :=
  if (filteredData data sel).length = 0 then []
  else sortCmp alertCmp ((filteredData data sel).filter alertPred)

/-- Embedding of the `alertItems` memo (lines 268-270): the first 20
entries of the full alert list. -/
def alertItems (data : Option (List Record)) (sel : Selection) :
    List Record :=
  (alertItemsAll data sel).take 20

/-- Warning-status test used to state the alert ordering. -/
def isW (r : Record) : Bool := r.status == "Warning"

/-- Caution-status test used to state the alert ordering. -/
def isC (r : Record) : Bool := r.status == "Caution"

/-- The record-level normalization the save/fetch round trip applies: all
string fields survive unchanged (empty ↔ NULL cancels out), while the raw
notification-date cell is replaced by its Date-Normalizer ISO rendering,
the empty string when it is unparseable. -/
def normalizeRecord (ctx : Ctx) (r : Record) : Record :=
  { r with notificationDate := .str ((parseDate ctx r.notificationDate).getD "") }

/-- Every-operation invariant the spec states for the in-memory record set:
absent, or a non-empty sequence. -/
def dataOk : Option (List Record) → Prop
  | none => True
  | some l => l ≠ []

/-! ## Helper lemmas -/

theorem fetchPages_flatten (rows : List DbRow) (start : Nat) :
    (fetchPages rows start).flatten = rows.drop start := by
  induction start using fetchPages.induct rows with
  | case1 start h ih =>
    rw [fetchPages.eq_def, dif_pos h, List.flatten_cons, ih]
    exact List.drop_take_append_drop ..
  | case2 start h =>
    rw [fetchPages.eq_def, dif_neg h]
    simp only [List.flatten_cons, List.flatten_nil, List.append_nil]
    apply List.take_of_length_le
    simp only [List.length_take, List.length_drop] at h ⊢
    omega

theorem fetchPages_shape (rows : List DbRow) (start : Nat) :
    ∃ fullPages lastPage,
      fetchPages rows start = fullPages ++ [lastPage] ∧
      (∀ p ∈ fullPages, p.length = pageSize) ∧
      lastPage.length < pageSize := by
  induction start using fetchPages.induct rows with
  | case1 start h ih =>
    obtain ⟨ps, lastPage, heq, hfull, hshort⟩ := ih
    refine ⟨(rows.drop start).take pageSize :: ps, lastPage, ?_, ?_, hshort⟩
    · rw [fetchPages.eq_def, dif_pos h, heq, List.cons_append]
    · intro p hp
      rcases List.mem_cons.mp hp with rfl | hp
      · exact h
      · exact hfull p hp
  | case2 start h =>
    refine ⟨[], (rows.drop start).take pageSize, ?_, by simp, ?_⟩
    · rw [fetchPages.eq_def, dif_neg h, List.nil_append]
    · simp only [List.length_take, List.length_drop] at h ⊢
      omega

theorem insertCmp_perm (cmp : α → α → Int) (x : α) (l : List α) :
    (insertCmp cmp x l).Perm (x :: l) := by
  induction l with
  | nil => exact List.Perm.refl _
  | cons y ys ih =>
    rw [insertCmp]
    by_cases h : cmp x y ≤ 0
    · rw [if_pos h]
    · rw [if_neg h]
      exact (List.Perm.cons y ih).trans (List.Perm.swap x y ys)

theorem sortCmp_perm (cmp : α → α → Int) (l : List α) :
    (sortCmp cmp l).Perm l := by
  induction l with
  | nil => exact List.Perm.refl _
  | cons x xs ih =>
    rw [sortCmp]
    exact (insertCmp_perm cmp x (sortCmp cmp xs)).trans (List.Perm.cons x ih)

theorem insertCmp_alert_warning (x : Record) (hx : x.status = "Warning")
    (l : List Record)
    (hl : ∀ y ∈ l, y.status = "Warning" ∨ y.status = "Caution") :
    insertCmp alertCmp x l = x :: l := by
  cases l with
  | nil => rfl
  | cons y ys =>
    rw [insertCmp]
    have hy := hl y (List.mem_cons_self ..)
    have hle : alertCmp x y ≤ 0 := by
      unfold alertCmp
      rcases hy with hy | hy <;> simp [hx, hy]
    simp [hle]

theorem insertCmp_alert_caution (x : Record) (hx : x.status = "Caution")
    (ws cs : List Record)
    (hws : ∀ y ∈ ws, y.status = "Warning")
    (hcs : ∀ y ∈ cs, y.status = "Caution") :
    insertCmp alertCmp x (ws ++ cs) = ws ++ x :: cs := by
  induction ws with
  | nil =>
    cases cs with
    | nil => rfl
    | cons y ys =>
      have hy := hcs y (List.mem_cons_self ..)
      have hle : alertCmp x y ≤ 0 := by unfold alertCmp; simp [hx, hy]
      simp only [List.nil_append, insertCmp, hle, if_true]
  | cons w ws' ih =>
    have hw := hws w (List.mem_cons_self ..)
    have hgt : ¬ alertCmp x w ≤ 0 := by unfold alertCmp; simp [hx, hw]
    simp only [List.cons_append, insertCmp, hgt, if_false,
      List.cons.injEq, true_and]
    exact ih (fun y hy => hws y (List.mem_cons_of_mem _ hy))

theorem sortCmp_alert_split (l : List Record)
    (hl : ∀ y ∈ l, y.status = "Warning" ∨ y.status = "Caution") :
    sortCmp alertCmp l = l.filter isW ++ l.filter isC := by
  induction l with
  | nil => rfl
  | cons x xs ih =>
    have hx := hl x (List.mem_cons_self ..)
    have hxs : ∀ y ∈ xs, y.status = "Warning" ∨ y.status = "Caution" :=
      fun y hy => hl y (List.mem_cons_of_mem _ hy)
    rw [sortCmp, ih hxs]
    have hmem : ∀ y ∈ xs.filter isW ++ xs.filter isC,
        y.status = "Warning" ∨ y.status = "Caution" := by
      intro y hy
      rcases List.mem_append.mp hy with hy | hy <;>
        exact hxs y (List.mem_of_mem_filter hy)
    rcases hx with hx | hx
    · rw [insertCmp_alert_warning x hx _ hmem]
      have : isW x = true := by simp [isW, hx]
      have hnc : isC x = false := by simp [isC, hx]
      simp [List.filter_cons, this, hnc]
    · have hwm : ∀ y ∈ xs.filter isW, y.status = "Warning" := by
        intro y hy
        have := List.of_mem_filter hy
        simpa [isW] using this
      have hcm : ∀ y ∈ xs.filter isC, y.status = "Caution" := by
        intro y hy
        have := List.of_mem_filter hy
        simpa [isC] using this
      rw [insertCmp_alert_caution x hx _ _ hwm hcm]
      have hnw : isW x = false := by simp [isW, hx]
      have : isC x = true := by simp [isC, hx]
      simp [List.filter_cons, this, hnw]

theorem strOrNull_getD (s : String) : (strOrNull s).getD "" = s := by
  unfold strOrNull
  by_cases h : s = "" <;> simp [h]

theorem dbToApp_appToDb (ctx : Ctx) (r : Record) :
    dbToApp (appToDb ctx r) = normalizeRecord ctx r := by
  unfold dbToApp appToDb normalizeRecord
  simp [strOrNull_getD]

theorem save_preserves_dataOk (ctx : Ctx) (env : RemoteEnv)
    (configured : Bool) (now : Int) (st : AppState)
    (input : Option (List Record)) (h : dataOk st.data) :
    dataOk (saveEquipment ctx env configured now st input).2.1.data := by
  cases input with
  | none =>
    unfold saveEquipment
    by_cases hc : configured = false <;> simp [hc, h]
  | some eqData =>
    by_cases hc : configured = false
    · unfold saveEquipment; simp [hc, h]
    · cases eqData with
      | nil => unfold saveEquipment; simp [hc, h]
      | cons a l =>
        by_cases hdel : env.deleteOk = false
        · unfold saveEquipment; simp [hc, hdel, h]
        · by_cases hins : env.insertOk = false
          · unfold saveEquipment; simp [hc, hdel, hins, h]
          · by_cases hmeta : env.metaOk = false <;>
              · unfold saveEquipment
                simp [hc, hdel, hins, hmeta, dataOk]

theorem fetchEquipment_result (env : RemoteEnv) (st : AppState)
    (hr : env.readOk = true) :
    (fetchEquipment env true st).1 = (sortCmp dbCmp st.store).map dbToApp := by
  unfold fetchEquipment
  rw [if_neg (by simp), if_neg (by simp [hr])]
  simp [fetchPages_flatten]

/-! ## Fixtures used by witnesses and counterexamples -/

/-- A host context at UTC whose generic date parsing accepts nothing. -/
def ctxUTC : Ctx := ⟨0, fun _ => none⟩

/-- A host context at UTC+08:00 (the deployment's `en-MY` locale) whose
generic date parsing accepts nothing. -/
def ctxMY : Ctx := ⟨480, fun _ => none⟩

/-- An environment in which every remote call succeeds. -/
def envAll : RemoteEnv := ⟨true, true, true, true⟩

/-- An environment in which the bulk delete fails. -/
def envDelFail : RemoteEnv := ⟨false, true, true, true⟩

/-- An environment in which only the metadata upsert fails. -/
def envMetaFail : RemoteEnv := ⟨true, true, false, true⟩

/-- The initial state: nothing loaded, empty store. -/
def st0 : AppState := ⟨none, [], none, none, none⟩

/-- A representative record with every optional field non-empty. -/
def sampleRecord : Record :=
  ⟨"Ammonia", "Transmitter", "desc", "FL-1", "High", "Warning",
   "High alarm", "fix", .str "soon"⟩

/-! ## Claims -/

/-- C1: for every call to the save operation in which the remote delete
step fails, the bulk-insert call is never attempted (the only remote call
in the trace is the delete), and the in-memory record set — and the store —
are unchanged when the operation returns failure. -/
theorem saveEquipment_delete_failure_aborts (ctx : Ctx) (env : RemoteEnv)
    (now : Int) (st : AppState) (input : List Record)
    (hne : input ≠ []) (hdel : env.deleteOk = false) :
    (saveEquipment ctx env true now st (some input)).1 = false ∧
    (saveEquipment ctx env true now st (some input)).2.2 = [Call.del] ∧
    (∀ rows, Call.ins rows ∉ (saveEquipment ctx env true now st (some input)).2.2) ∧
    (saveEquipment ctx env true now st (some input)).2.1.data = st.data ∧
    (saveEquipment ctx env true now st (some input)).2.1.store = st.store := by
  have he : input.isEmpty = false := by
    cases input with
    | nil => exact absurd rfl hne
    | cons a l => rfl
  unfold saveEquipment
  simp [he, hdel]

theorem saveEquipment_delete_failure_aborts_witness :
    ([sampleRecord] ≠ ([] : List Record)) ∧ envDelFail.deleteOk = false ∧
    ((saveEquipment ctxUTC envDelFail true 0 st0 (some [sampleRecord])).1 = false ∧
     (saveEquipment ctxUTC envDelFail true 0 st0 (some [sampleRecord])).2.2 = [Call.del] ∧
     (∀ rows, Call.ins rows ∉ (saveEquipment ctxUTC envDelFail true 0 st0 (some [sampleRecord])).2.2) ∧
     (saveEquipment ctxUTC envDelFail true 0 st0 (some [sampleRecord])).2.1.data = st0.data ∧
     (saveEquipment ctxUTC envDelFail true 0 st0 (some [sampleRecord])).2.1.store = st0.store) :=
  ⟨List.cons_ne_nil _ _, rfl,
   saveEquipment_delete_failure_aborts ctxUTC envDelFail 0 st0 [sampleRecord]
     (List.cons_ne_nil _ _) rfl⟩

/-- C3: saving an empty or absent record list returns a validation failure
("No data to save."), attempts no remote call, and leaves both the store
and the in-memory record set unchanged. -/
theorem saveEquipment_rejects_empty (ctx : Ctx) (env : RemoteEnv)
    (now : Int) (st : AppState) (input : Option (List Record))
    (hempty : input = none ∨ input = some []) :
    (saveEquipment ctx env true now st input).1 = false ∧
    (saveEquipment ctx env true now st input).2.1.error = some "No data to save." ∧
    (saveEquipment ctx env true now st input).2.2 = [] ∧
    (saveEquipment ctx env true now st input).2.1.store = st.store ∧
    (saveEquipment ctx env true now st input).2.1.data = st.data := by
  rcases hempty with rfl | rfl <;> simp [saveEquipment]

theorem saveEquipment_rejects_empty_witness :
    (some ([] : List Record) = none ∨ some ([] : List Record) = some []) ∧
    ((saveEquipment ctxUTC envAll true 0 st0 (some [])).1 = false ∧
     (saveEquipment ctxUTC envAll true 0 st0 (some [])).2.1.error = some "No data to save." ∧
     (saveEquipment ctxUTC envAll true 0 st0 (some [])).2.2 = [] ∧
     (saveEquipment ctxUTC envAll true 0 st0 (some [])).2.1.store = st0.store ∧
     (saveEquipment ctxUTC envAll true 0 st0 (some [])).2.1.data = st0.data) :=
  ⟨Or.inr rfl,
   saveEquipment_rejects_empty ctxUTC envAll 0 st0 (some []) (Or.inr rfl)⟩

/-- C4: when delete and insert succeed but the metadata upsert fails, the
save operation still returns success, the inserted rows stay in the store,
the in-memory record set is set to the input records, and the metadata and
`lastRefreshedAt` are simply left unchanged. -/
theorem saveEquipment_meta_failure_best_effort (ctx : Ctx) (env : RemoteEnv)
    (now : Int) (st : AppState) (input : List Record)
    (hne : input ≠ []) (hdel : env.deleteOk = true)
    (hins : env.insertOk = true) (hmeta : env.metaOk = false) :
    (saveEquipment ctx env true now st (some input)).1 = true ∧
    (saveEquipment ctx env true now st (some input)).2.1.data = some input ∧
    (saveEquipment ctx env true now st (some input)).2.1.store
      = input.map (appToDb ctx) ∧
    (saveEquipment ctx env true now st (some input)).2.1.meta = st.meta ∧
    (saveEquipment ctx env true now st (some input)).2.1.lastRefreshedAt
      = st.lastRefreshedAt ∧
    (saveEquipment ctx env true now st (some input)).2.2
      = [Call.del, Call.ins (input.map (appToDb ctx)),
         Call.upsertMeta ⟨now, "Admin"⟩] := by
  have he : input.isEmpty = false := by
    cases input with
    | nil => exact absurd rfl hne
    | cons a l => rfl
  unfold saveEquipment
  simp [he, hdel, hins, hmeta]

theorem saveEquipment_meta_failure_best_effort_witness :
    ([sampleRecord] ≠ ([] : List Record)) ∧ envMetaFail.deleteOk = true ∧
    envMetaFail.insertOk = true ∧ envMetaFail.metaOk = false ∧
    ((saveEquipment ctxUTC envMetaFail true 7 st0 (some [sampleRecord])).1 = true ∧
     (saveEquipment ctxUTC envMetaFail true 7 st0 (some [sampleRecord])).2.1.data
       = some [sampleRecord] ∧
     (saveEquipment ctxUTC envMetaFail true 7 st0 (some [sampleRecord])).2.1.store
       = [sampleRecord].map (appToDb ctxUTC) ∧
     (saveEquipment ctxUTC envMetaFail true 7 st0 (some [sampleRecord])).2.1.meta
       = st0.meta ∧
     (saveEquipment ctxUTC envMetaFail true 7 st0 (some [sampleRecord])).2.1.lastRefreshedAt
       = st0.lastRefreshedAt ∧
     (saveEquipment ctxUTC envMetaFail true 7 st0 (some [sampleRecord])).2.2
       = [Call.del, Call.ins ([sampleRecord].map (appToDb ctxUTC)),
          Call.upsertMeta ⟨7, "Admin"⟩]) :=
  ⟨List.cons_ne_nil _ _, rfl, rfl, rfl,
   saveEquipment_meta_failure_best_effort ctxUTC envMetaFail 7 st0 [sampleRecord]
     (List.cons_ne_nil _ _) rfl rfl rfl⟩

/-- C8: for every record set (whose statuses satisfy the data-model
invariant) and every filter selection, the full alert list is exactly the
Warning-status part of the filtered records passing the alert predicate
followed by their Caution-status part, each part in its original order —
so membership is exactly the alert predicate over the filtered set, every
Warning entry precedes every Caution entry, ties are stable — and the flat
list variant is the first 20 entries of that ordering. -/
theorem alertList_warning_before_caution (records : List Record)
    (sel : Selection)
    (hinv : ∀ r ∈ records,
      r.status = "Healthy" ∨ r.status = "Warning" ∨ r.status = "Caution") :
    alertItemsAll (some records) sel
      = ((filteredData (some records) sel).filter alertPred).filter isW
        ++ ((filteredData (some records) sel).filter alertPred).filter isC ∧
    alertItems (some records) sel
      = (alertItemsAll (some records) sel).take 20 := by
  refine ⟨?_, rfl⟩
  unfold alertItemsAll
  by_cases h : (filteredData (some records) sel).length = 0
  · have hnil : filteredData (some records) sel = [] :=
      List.length_eq_zero.mp h
    simp [h, hnil]
  · rw [if_neg h]
    apply sortCmp_alert_split
    intro y hy
    have hyp : alertPred y = true := List.of_mem_filter hy
    have hymem : y ∈ records := by
      have hf := List.mem_of_mem_filter hy
      unfold filteredData at hf
      exact List.mem_of_mem_filter hf
    rcases hinv y hymem with h1 | h1 | h1
    · exfalso
      unfold alertPred at hyp
      simp [h1] at hyp
    · exact Or.inl h1
    · exact Or.inr h1

/-- A Caution record with a plain alarm text. -/
def cautionRecord : Record :=
  ⟨"Urea", "Valve", "", "", "", "Caution", "drift alarm", "", .str ""⟩

/-- A Healthy record. -/
def healthyRecord : Record :=
  ⟨"Urea", "Valve", "", "", "", "Healthy", "ok", "", .str ""⟩

/-- A Warning record whose alarm text mentions obsolescence. -/
def obsoleteRecord : Record :=
  ⟨"System", "PLC", "", "", "", "Warning", "is OBSOLETE now", "", .str ""⟩

/-- The all-pass filter selection. -/
def selAll : Selection := ⟨"All", "All", "All"⟩

theorem alertList_warning_before_caution_witness :
    (∀ r ∈ [cautionRecord, healthyRecord, obsoleteRecord, sampleRecord],
      r.status = "Healthy" ∨ r.status = "Warning" ∨ r.status = "Caution") ∧
    (alertItemsAll (some [cautionRecord, healthyRecord, obsoleteRecord,
        sampleRecord]) selAll
      = ((filteredData (some [cautionRecord, healthyRecord, obsoleteRecord,
            sampleRecord]) selAll).filter alertPred).filter isW
        ++ ((filteredData (some [cautionRecord, healthyRecord, obsoleteRecord,
            sampleRecord]) selAll).filter alertPred).filter isC ∧
     alertItems (some [cautionRecord, healthyRecord, obsoleteRecord,
        sampleRecord]) selAll
      = (alertItemsAll (some [cautionRecord, healthyRecord, obsoleteRecord,
          sampleRecord]) selAll).take 20) :=
  ⟨by decide,
   alertList_warning_before_caution
     [cautionRecord, healthyRecord, obsoleteRecord, sampleRecord] selAll
     (by decide)⟩

/-- C10: a non-empty string the display formatter cannot parse — the
`D{1,2}-MMM-YYYY` match yields nothing and generic date parsing rejects it
— is returned unchanged by `formatDate`, while `parseDate` returns absent
(`null`) for the same input. -/
theorem formatDate_returns_unparseable_input (ctx : Ctx) (v : String)
    (h1 : v ≠ "") (h2 : ddMmmMs ctx.tz v = none)
    (h3 : ctx.genParse v = none) :
    formatDate ctx (.str v) = .str v ∧ parseDate ctx (.str v) = none := by
  have ht : vTruthy (.str v) = true := by simp [vTruthy, h1]
  constructor
  · unfold formatDate
    rw [ht]
    simp [h2, h3]
  · unfold parseDate
    rw [ht]
    simp [h2, h3]

theorem formatDate_returns_unparseable_input_witness :
    ("hello" ≠ "") ∧ ddMmmMs ctxUTC.tz "hello" = none ∧
    ctxUTC.genParse "hello" = none ∧
    (formatDate ctxUTC (.str "hello") = .str "hello" ∧
     parseDate ctxUTC (.str "hello") = none) :=
  ⟨by decide, by decide, rfl,
   formatDate_returns_unparseable_input ctxUTC "hello" (by decide)
     (by decide) rfl⟩

/-- A raw row whose only cell is a numeric equipment-type value; its status
is absent, hence rejected by the status test. -/
def numericTypeRow : Row := [("Equiment Type", CellVal.num 1)]

/-- A raw row with the out-of-enum status value "Unknown". -/
def unknownStatusRow : Row := [("Status", CellVal.str "Unknown")]

/-- A raw row the status test accepts. -/
def acceptedRow : Row := [("Status", CellVal.str "Warning")]

/-- C5 counterexample: a raw row with an absent `Status` (so outside
{Healthy, Caution, Warning}) on which the mapper nevertheless raises an
error — `.trim()` is applied to the truthy numeric `Equiment Type` cell
before the status check — contradicting "no error is raised for it". -/
theorem mapRow_numeric_cell_throws :
    statusAccept numericTypeRow = false ∧
    mapRow "Ammonia" numericTypeRow = .error () := ⟨rfl, rfl⟩

/-- C5 amended: a raw row whose status is rejected by the status test is
silently excluded — `ok none` from the mapper, and removing it from a
sheet's row sequence does not change the mapped output — provided the
equipment-type cell the mapper trims first is a string (as it always is
unless a truthy non-string cell occupies one of the two equipment-type
headers, in which case the mapper throws instead). -/
theorem mapRows_cons (sheetName : String) (r : Row) (rest : List Row) :
    mapRows sheetName (r :: rest)
      = (match mapRow sheetName r with
         | .error e => .error e
         | .ok none => mapRows sheetName rest
         | .ok (some rec) =>
           match mapRows sheetName rest with
           | .error e => .error e
           | .ok recs => .ok (rec :: recs)) := rfl

theorem mapRow_silent_reject (sheetName : String) (row : Row)
    (pre post : List Row)
    (h1 : statusAccept row = false) (h2 : isStr (etRead row) = true) :
    mapRow sheetName row = .ok none ∧
    mapRows sheetName (pre ++ row :: post) = mapRows sheetName (pre ++ post) := by
  have hok : mapRow sheetName row = .ok none := by
    unfold mapRow
    cases hets : etRead row with
    | str s => simp [cellTrim, h1]
    | num n => rw [hets] at h2; simp [isStr] at h2
  refine ⟨hok, ?_⟩
  induction pre with
  | nil =>
    simp only [List.nil_append]
    rw [mapRows_cons, hok]
  | cons p pre' ih =>
    simp only [List.cons_append]
    rw [mapRows_cons, ih, ← mapRows_cons]

theorem mapRow_silent_reject_witness :
    statusAccept unknownStatusRow = false ∧
    isStr (etRead unknownStatusRow) = true ∧
    (mapRow "Ammonia" unknownStatusRow = .ok none ∧
     mapRows "Ammonia" ([acceptedRow] ++ unknownStatusRow :: [])
       = mapRows "Ammonia" ([acceptedRow] ++ [])) :=
  ⟨rfl, rfl,
   mapRow_silent_reject "Ammonia" unknownStatusRow [acceptedRow] [] rfl rfl⟩

/-- C6 counterexample: the numeric input 0 — the serial the claim itself
pins to 1899-12-30 — is falsy, so `parseDate` returns absent instead of
the claimed calendar date. -/
theorem parseDate_serial_zero_null :
    parseDate ctxUTC (.num 0) ≠ some (isoOfDays (0 - 25569)) ∧
    parseDate ctxUTC (.num 0) = none ∧
    isoOfDays (0 - 25569) = "1899-12-30" :=
  ⟨by decide, rfl, by decide⟩

/-- C6 amended: every nonzero numeric input `s` in the valid spreadsheet
serial range (1..2958465, dates up to 9999-12-31) is mapped to the calendar
date 1970-01-01 plus `s - 25569` days, the 1900-date-system interpretation
whose serial 0 — excluded by the code's falsiness guard — would denote
1899-12-30. -/
theorem parseDate_excel_serial (ctx : Ctx) (s : Int)
    (h1 : 1 ≤ s) (h2 : s ≤ 2958465) :
    parseDate ctx (.num s) = some (isoOfDays (s - 25569)) ∧
    civilFromDays (0 - 25569) = (1899, 12, 30) := by
  refine ⟨?_, by decide⟩
  have ht : vTruthy (.num s) = true := by
    simp only [vTruthy, ne_eq, decide_eq_true_eq]
    omega
  have hms : msValid ((s - 25569) * 86400 * 1000) = true := by
    simp only [msValid, decide_eq_true_eq]
    omega
  unfold parseDate
  rw [ht]
  simp only [Bool.true_eq_false, if_false, hms, if_true, isoDateOfMs,
    Option.some.injEq]
  congr 1
  have harith : (s - 25569) * 86400 * 1000 = (s - 25569) * 86400000 := by
    ring
  rw [harith, Int.mul_fdiv_cancel _ (by norm_num)]

theorem parseDate_excel_serial_witness :
    ((1 : Int) ≤ 45976 ∧ (45976 : Int) ≤ 2958465) ∧
    (parseDate ctxUTC (.num 45976) = some (isoOfDays (45976 - 25569)) ∧
     civilFromDays (0 - 25569) = (1899, 12, 30)) ∧
    isoOfDays (45976 - 25569) = "2025-11-15" :=
  ⟨⟨by norm_num, by norm_num⟩,
   parseDate_excel_serial ctxUTC 45976 (by norm_num) (by norm_num),
   by decide⟩

/-- C7: the `D{1,2}-MMM-YYYY` path constructs local midnight
(`new Date(year, month, day)`) but persists the UTC calendar date
(`toISOString`), so in any zone east of UTC — UTC+08:00 being the
deployment's own `en-MY` zone — the persisted date is the day before the
one written in the string, while at UTC it is the written date. -/
theorem parseDate_ddmmm_timezone_shift :
    parseDate ctxMY (.str "15-Nov-2025") = some "2025-11-14" ∧
    parseDate ctxUTC (.str "15-Nov-2025") = some "2025-11-15" :=
  ⟨by decide, by decide⟩

/-- A workbook whose only recognized sheet contains one rejected row. -/
def rejectedOnlyWorkbook : Workbook := [("Ammonia", [unknownStatusRow])]

/-- C9 counterexample: uploading a workbook whose every row is rejected
completes with the in-memory record set equal to `some []` — an empty
sequence, not absent — through the upload handler's fallback branch. -/
theorem upload_empty_ingest_empty_data :
    (handleUpload ctxUTC envAll true 0 st0 rejectedOnlyWorkbook).1.data
      = some ([] : List Record) ∧
    ¬ dataOk (handleUpload ctxUTC envAll true 0 st0 rejectedOnlyWorkbook).1.data := by
  have h : (handleUpload ctxUTC envAll true 0 st0 rejectedOnlyWorkbook).1.data
      = some ([] : List Record) := by decide
  refine ⟨h, ?_⟩
  rw [h]
  exact fun hc => hc rfl

/-- C9 amended: the initial fetch, the save and the clear operations all
leave the in-memory record set absent or non-empty, and so does an upload
whose ingestion yields a non-empty record list; only an upload whose
ingestion yields the empty list can break the invariant. -/
theorem record_set_invariant_preserved (ctx : Ctx) (env : RemoteEnv)
    (configured : Bool) (now : Int) (st : AppState)
    (input : Option (List Record)) (wb : Workbook) (l : List Record)
    (hdata : dataOk st.data) (hwb : ingest wb = .ok l) (hl : l ≠ []) :
    dataOk (fetchEquipment env configured st).2.data ∧
    dataOk (saveEquipment ctx env configured now st input).2.1.data ∧
    dataOk (clearAllData env configured st).2.1.data ∧
    dataOk (handleUpload ctx env configured now st wb).1.data := by
  refine ⟨?_, save_preserves_dataOk ctx env configured now st input hdata,
    ?_, ?_⟩
  · unfold fetchEquipment
    by_cases hc : configured = false
    · simp [hc, hdata]
    · rw [if_neg hc]
      by_cases hr : env.readOk = false
      · simp [hr, hdata]
      · rw [if_neg hr]
        simp only
        split
        · rename_i hlen
          simp only [dataOk, ne_eq]
          intro hnil
          rw [hnil] at hlen
          simp at hlen
        · trivial
  · unfold clearAllData
    by_cases hc : configured = false
    · simp [hc, hdata]
    · rw [if_neg hc]
      by_cases hdel : env.deleteOk = false
      · rw [if_pos hdel]
        exact hdata
      · rw [if_neg hdel]
        trivial
  · unfold handleUpload
    rw [hwb]
    simp only
    by_cases hc2 : (configured && decide (l.length > 0)) = true
    · rw [if_pos hc2]
      split
      · exact save_preserves_dataOk ctx env configured now _ (some l) hdata
      · simp [dataOk, hl]
    · rw [if_neg hc2]
      simp [dataOk, hl]

/-- The record the mapper produces from `acceptedRow` on sheet Ammonia. -/
def ingestedRecord : Record :=
  ⟨"Ammonia", "Unknown", "", "", "", "Warning", "", "", .str ""⟩

theorem record_set_invariant_preserved_witness :
    dataOk st0.data ∧
    ingest [("Ammonia", [acceptedRow])] = .ok [ingestedRecord] ∧
    [ingestedRecord] ≠ [] ∧
    (dataOk (fetchEquipment envAll true st0).2.data ∧
     dataOk (saveEquipment ctxUTC envAll true 0 st0 (some [sampleRecord])).2.1.data ∧
     dataOk (clearAllData envAll true st0).2.1.data ∧
     dataOk (handleUpload ctxUTC envAll true 0 st0
       [("Ammonia", [acceptedRow])]).1.data) :=
  ⟨trivial, by decide, by decide,
   record_set_invariant_preserved ctxUTC envAll true 0 st0
     (some [sampleRecord]) [("Ammonia", [acceptedRow])] [ingestedRecord]
     trivial (by decide) (by decide)⟩

/-- C2 counterexample: after a successful save of a single record whose
non-empty `notificationDate` string is not a parseable date, the fetched
result differs from the saved records — the notification date comes back
as the empty string, a change beyond empty ↔ null normalization. -/
theorem fetch_after_replace_not_identity :
    (saveEquipment ctxUTC envAll true 0 st0 (some [sampleRecord])).1 = true ∧
    (fetchEquipment envAll true
      (saveEquipment ctxUTC envAll true 0 st0 (some [sampleRecord])).2.1).1
      ≠ [sampleRecord] := by
  refine ⟨by decide, ?_⟩
  rw [fetchEquipment_result envAll _ rfl]
  decide

/-- C2 amended: the fetch pages the sorted remote rows in successive
ranges of 1000, every page before the last is full and the last is short
(the loop stops exactly at the first short response), the concatenation of
the pages in request order is the entire sorted row set, and the fetch
after a successful save of `records` returns a permutation of `records`
with each record unchanged except that its notification date is replaced
by its Date-Normalizer ISO rendering (empty when unparseable); optional
string fields survive the empty ↔ null round trip unchanged. -/
theorem fetch_after_replace_roundtrip (ctx : Ctx) (env : RemoteEnv)
    (now : Int) (st : AppState) (records : List Record)
    (hne : records ≠ []) (hdel : env.deleteOk = true)
    (hins : env.insertOk = true) (hread : env.readOk = true) :
    (saveEquipment ctx env true now st (some records)).1 = true ∧
    (∃ fullPages lastPage,
       fetchPages (sortCmp dbCmp
           (saveEquipment ctx env true now st (some records)).2.1.store) 0
         = fullPages ++ [lastPage] ∧
       (∀ p ∈ fullPages, p.length = pageSize) ∧
       lastPage.length < pageSize) ∧
    (fetchPages (sortCmp dbCmp
        (saveEquipment ctx env true now st (some records)).2.1.store) 0).flatten
      = sortCmp dbCmp
          (saveEquipment ctx env true now st (some records)).2.1.store ∧
    ((fetchEquipment env true
        (saveEquipment ctx env true now st (some records)).2.1).1).Perm
      (records.map (normalizeRecord ctx)) := by
  have he : records.isEmpty = false := by
    cases records with
    | nil => exact absurd rfl hne
    | cons a lrec => rfl
  have hsucc : (saveEquipment ctx env true now st (some records)).1 = true := by
    unfold saveEquipment
    by_cases hmeta : env.metaOk = false <;> simp [he, hdel, hins, hmeta]
  have hstore : (saveEquipment ctx env true now st (some records)).2.1.store
      = records.map (appToDb ctx) := by
    unfold saveEquipment
    by_cases hmeta : env.metaOk = false <;> simp [he, hdel, hins, hmeta]
  refine ⟨hsucc, fetchPages_shape _ 0, by simpa using fetchPages_flatten _ 0, ?_⟩
  rw [fetchEquipment_result env _ hread, hstore]
  refine ((sortCmp_perm dbCmp (records.map (appToDb ctx))).map dbToApp).trans ?_
  rw [List.map_map]
  rw [show dbToApp ∘ appToDb ctx = normalizeRecord ctx from
    funext (dbToApp_appToDb ctx)]

theorem fetch_after_replace_roundtrip_witness :
    ([sampleRecord] ≠ ([] : List Record)) ∧ envAll.deleteOk = true ∧
    envAll.insertOk = true ∧ envAll.readOk = true ∧
    ((saveEquipment ctxUTC envAll true 0 st0 (some [sampleRecord])).1 = true ∧
     (∃ fullPages lastPage,
        fetchPages (sortCmp dbCmp
            (saveEquipment ctxUTC envAll true 0 st0 (some [sampleRecord])).2.1.store) 0
          = fullPages ++ [lastPage] ∧
        (∀ p ∈ fullPages, p.length = pageSize) ∧
        lastPage.length < pageSize) ∧
     (fetchPages (sortCmp dbCmp
         (saveEquipment ctxUTC envAll true 0 st0 (some [sampleRecord])).2.1.store) 0).flatten
       = sortCmp dbCmp
           (saveEquipment ctxUTC envAll true 0 st0 (some [sampleRecord])).2.1.store ∧
     ((fetchEquipment envAll true
         (saveEquipment ctxUTC envAll true 0 st0 (some [sampleRecord])).2.1).1).Perm
       ([sampleRecord].map (normalizeRecord ctxUTC))) :=
  ⟨List.cons_ne_nil _ _, rfl, rfl, rfl,
   fetch_after_replace_roundtrip ctxUTC envAll 0 st0 [sampleRecord]
     (List.cons_ne_nil _ _) rfl rfl rfl⟩

end Dash
